import Mathlib

/-!
Shallow embedding of the 2D bin-packing container model from
`rl_bin_packing/container/two_d.py`.

Conventions of the embedding:
* Python `int` fields become `ℤ`; `int | float` position coordinates become `ℚ`
  (all arithmetic performed on them in the source is exact field arithmetic).
* Container dimensions become `ℕ`: the constructor allocates a
  `length × height` numpy array, which rejects negative shapes, so every
  constructed container has nonnegative dimensions.
* Fallible operations (Python raising `ZeroDivisionError`) return `Option`.
* The occupancy grid (`numpy.int8` array) is a total function `ℕ → ℕ → ℤ`
  whose writes follow Python/numpy slice normalization (`normIdx`) and wrap
  each cell value as a signed 8-bit integer (`wrap8`).
-/

namespace RLBinPacking

/-- Python `Shipment` dataclass: dimensions and properties; frozen, value equality. -/
structure Shipment where
  length : ℤ
  height : ℤ
  weight : ℤ
  stackable : Bool := true
  rotatable : Bool := false
  identifier : Option String := none
deriving DecidableEq, Repr

/-- Source `Shipment.volume`: `length * height`. -/
def Shipment.volume (s : Shipment) : ℤ :=
  s.length * s.height

/-- Python `Position` dataclass: 2D coordinates, possibly fractional; value equality. -/
structure Position where
  x : ℚ
  y : ℚ
deriving DecidableEq, Repr

/-- Source `Position.__add__`: component-wise addition. -/
def Position.add (p q : Position) : Position :=
  ⟨p.x + q.x, p.y + q.y⟩

/-- Source `Position.__mul__`: scale both components by an integer. -/
def Position.mul (p : Position) (i : ℤ) : Position :=
  ⟨p.x * i, p.y * i⟩

/-- Source `Position.__truediv__`: divide both components by an integer.  The source
raises `ZeroDivisionError` for `i = 0`; callers guard the zero case. -/
def Position.div (p : Position) (i : ℤ) : Position :=
  ⟨p.x / i, p.y / i⟩

/-- Python `PackedShipment` dataclass: a shipment with its placement; value equality. -/
structure PackedShipment where
  shipment : Shipment
  position : Position
deriving DecidableEq, Repr

/-- Source `PackedShipment.center_of_gravity`:
`((position.x * 2 + length) / 2, (position.y * 2 + height) / 2)`. -/
def PackedShipment.center_of_gravity (ps : PackedShipment) : Position :=
  ⟨(ps.position.x * 2 + ps.shipment.length) / 2,
   (ps.position.y * 2 + ps.shipment.height) / 2⟩

/-- Python `Container` state: fixed dimensions, packed-shipment list, occupancy grid. -/
structure Container where
  length : ℕ
  height : ℕ
  shipments : List PackedShipment
  map : ℕ → ℕ → ℤ

/-- Source `Container.__init__`: empty shipment list, all-zero grid (`_init_map`). -/
def Container.init (length height : ℕ) : Container :=
  ⟨length, height, [], fun _ _ => 0⟩

/-- Source `Container.total_volume`: `length * height`. -/
def Container.total_volume (c : Container) : ℤ :=
  (c.length : ℤ) * (c.height : ℤ)

/-- Source `Container.remaining_volume`:
`total_volume - sum(s.shipment.volume for s in shipments)`. -/
def Container.remaining_volume (c : Container) : ℤ :=
  c.total_volume - (c.shipments.map (fun s => s.shipment.volume)).sum

/-- Source `Container.degree_of_filling`: `remaining_volume / total_volume`; the
division raises `ZeroDivisionError` when `total_volume = 0`. -/
def Container.degree_of_filling (c : Container) : Option ℚ :=
  if c.total_volume = 0 then none
  else some ((c.remaining_volume : ℚ) / (c.total_volume : ℚ))

/-- Source `Container.weight`: `sum(ps.shipment.weight for ps in shipments)`. -/
def Container.weight (c : Container) : ℤ :=
  (c.shipments.map (fun ps => ps.shipment.weight)).sum

/-- Source `Container.center_of_gravity`: fold `cog += ps.center_of_gravity * weight`
starting from `(0, 0)`, then `cog /= self.weight`; the final division raises
`ZeroDivisionError` exactly when the total weight is zero. -/
def Container.center_of_gravity (c : Container) : Option Position :=
  if c.weight = 0 then none
  else some ((c.shipments.foldl
      (fun (cog : Position) ps =>
        cog.add (ps.center_of_gravity.mul ps.shipment.weight))
      ⟨0, 0⟩).div c.weight)

/-- Source `Container.optimal_center_of_gravity`: `(length / 2, 0)`. -/
def Container.optimal_center_of_gravity (c : Container) : Position :=
  ⟨(c.length : ℚ) / 2, 0⟩

/-- Source `Container.distance_optimal_cog`:
`sqrt((optimal.x - cog.x + optimal.y - cog.y) ** 2)`; propagates the
`ZeroDivisionError` of `center_of_gravity`. -/
noncomputable def Container.distance_optimal_cog (c : Container) : Option ℝ :=
  c.center_of_gravity.map (fun cog =>
    Real.sqrt (((c.optimal_center_of_gravity.x : ℝ) - (cog.x : ℝ)
      + (c.optimal_center_of_gravity.y : ℝ) - (cog.y : ℝ)) ^ 2))

/-- Source `Container._check_ouf_bound_shipments` (name kept from the source): `False`
as soon as some shipment has `x < 0`, `y < 0`, `x + length > self.length` or
`y + height > self.height`, else `True`. -/
def Container.check_ouf_bound_shipments (c : Container) : Bool :=
  c.shipments.all (fun ps =>
    !(decide (ps.position.x < 0) || decide (ps.position.y < 0)
      || decide ((ps.position.x + (ps.shipment.length : ℚ)) > (c.length : ℚ))
      || decide ((ps.position.y + (ps.shipment.height : ℚ)) > (c.height : ℚ))))

/-- The separation test inside `_check__non_overlapping_shipments`: `True` when
the rectangle of `s1` does NOT overlap the rectangle of `s2`, i.e.
`x1_2 <= x2_1 or x2_2 <= x1_1 or y1_2 <= y2_1 or y2_2 <= y1_1`. -/
def separated (s1 s2 : PackedShipment) : Bool :=
  decide (s1.position.x + (s1.shipment.length : ℚ) ≤ s2.position.x)
    || decide (s2.position.x + (s2.shipment.length : ℚ) ≤ s1.position.x)
    || decide (s1.position.y + (s1.shipment.height : ℚ) ≤ s2.position.y)
    || decide (s2.position.y + (s2.shipment.height : ℚ) ≤ s1.position.y)

/-- Source `Container._check__non_overlapping_shipments` (name kept from the source):
double loop over the shipment list; pairs with `shipment1 != shipment2`
(dataclass VALUE inequality) whose rectangles are not separated make it
return `False`. -/
def Container.check__non_overlapping_shipments (c : Container) : Bool :=
  c.shipments.all (fun s1 =>
    c.shipments.all (fun s2 =>
      decide (s1 = s2) || separated s1 s2))

/-- Source `Container.valid`: both checks must pass (`valid &= ...` twice). -/
def Container.valid (c : Container) : Bool :=
  c.check_ouf_bound_shipments && c.check__non_overlapping_shipments

/-- Python slice-bound normalization for an axis of size `n` (step 1):
a negative bound wraps to `n + i` then clamps at `0`; a nonnegative bound
clamps at `n`.  Start and stop bounds normalize identically. -/
def normIdx (n : ℕ) (i : ℤ) : ℤ :=
  if i < 0 then max ((n : ℤ) + i) 0 else min i (n : ℤ)

/-- Whether index `i` lies in the normalized slice `[start:stop]` of an axis of
size `n`. -/
def sliceMem (n : ℕ) (start stop : ℤ) (i : ℕ) : Bool :=
  decide (normIdx n start ≤ (i : ℤ) ∧ (i : ℤ) < normIdx n stop)

/-- Signed 8-bit wrap-around, the arithmetic of the grid's `numpy.int8` cells. -/
def wrap8 (z : ℤ) : ℤ :=
  (z + 128) % 256 - 128

/-- Source `Container._update_map` for a shipment packed at integer coordinates
`(x, y)`: `self.map[x:x+length, y:y+height] += 1`, with numpy's slice
normalization and `int8` cell arithmetic. -/
def Container.update_map (c : Container) (s : Shipment) (x y : ℤ) : Container :=
  { c with map := fun i j =>
      if sliceMem c.length x (x + s.length) i
          && sliceMem c.height y (y + s.height) j then
        wrap8 (c.map i j + 1)
      else c.map i j }

/-- Source `Container.pack(shipment, x, y)`: append `PackedShipment(shipment,
Position(x, y))` to the list, then `_update_map`. -/
def Container.pack (c : Container) (s : Shipment) (x y : ℤ) : Container :=
  { c.update_map s x y with
      shipments := c.shipments ++ [⟨s, ⟨(x : ℚ), (y : ℚ)⟩⟩] }

/-- Pack a whole list of `(shipment, x, y)` requests in order. -/
def Container.packList (c : Container) (items : List (Shipment × ℤ × ℤ)) :
    Container :=
  items.foldl (fun acc it => acc.pack it.1 it.2.1 it.2.2) c

/-! ### Helper lemmas -/

/-- Packing does not change the container's dimensions. -/
theorem pack_length (c : Container) (s : Shipment) (x y : ℤ) :
    (c.pack s x y).length = c.length := rfl

/-- Packing does not change the container's dimensions. -/
theorem pack_height (c : Container) (s : Shipment) (x y : ℤ) :
    (c.pack s x y).height = c.height := rfl

/-- Packing appends exactly one packed shipment. -/
theorem pack_shipments (c : Container) (s : Shipment) (x y : ℤ) :
    (c.pack s x y).shipments = c.shipments ++ [⟨s, ⟨(x : ℚ), (y : ℚ)⟩⟩] := rfl

/-- The weight after a `pack` grows by the packed shipment's weight. -/
theorem weight_pack (c : Container) (s : Shipment) (x y : ℤ) :
    (c.pack s x y).weight = c.weight + s.weight := by
  simp [Container.weight, pack_shipments]

/-- The weight after `packList` is the starting weight plus the sum of the
packed shipments' weights. -/
theorem weight_packList (items : List (Shipment × ℤ × ℤ)) (c : Container) :
    (c.packList items).weight
      = c.weight + (items.map (fun it => it.1.weight)).sum := by
  induction items generalizing c with
  | nil => simp [Container.packList]
  | cons it rest ih =>
      have : (c.packList (it :: rest)) = ((c.pack it.1 it.2.1 it.2.2).packList rest) := rfl
      rw [this, ih, weight_pack]
      simp
      ring

/-- An empty shipment list gives weight zero. -/
theorem weight_eq_zero_of_nil (c : Container) (h : c.shipments = []) :
    c.weight = 0 := by
  simp [Container.weight, h]

/-- Claim-side geometric predicate, following the spec's wording: two packed
shipments' rectangles overlap iff neither is entirely to one side of the
other along both axes (sharing only a boundary edge is not an overlap). -/
def specRectOverlap (s1 s2 : PackedShipment) : Prop :=
  ¬(s1.position.x + (s1.shipment.length : ℚ) ≤ s2.position.x
    ∨ s2.position.x + (s2.shipment.length : ℚ) ≤ s1.position.x
    ∨ s1.position.y + (s1.shipment.height : ℚ) ≤ s2.position.y
    ∨ s2.position.y + (s2.shipment.height : ℚ) ≤ s1.position.y)

instance (s1 s2 : PackedShipment) : Decidable (specRectOverlap s1 s2) := by
  unfold specRectOverlap
  infer_instance

/-- Claim-side geometric predicate, following the spec's wording: every
rational point of the footprint `[x, x+length) × [y, y+height)` lies in the
closed box `[0, len] × [0, ht]`. -/
def specFootprintWithin (ps : PackedShipment) (len ht : ℕ) : Prop :=
  ∀ q r : ℚ, ps.position.x ≤ q → q < ps.position.x + ps.shipment.length →
    ps.position.y ≤ r → r < ps.position.y + ps.shipment.height →
    0 ≤ q ∧ q ≤ len ∧ 0 ≤ r ∧ r ≤ ht

/-- An example container used by witnesses: 5×3 with one 1×1 shipment of
weight 40 at the origin. -/
def exSingle : Container :=
  (Container.init 5 3).pack ⟨1, 1, 40, true, false, none⟩ 0 0

/-- An example container with two identical 2×2 shipments stacked at the
origin of a 2×2 container: total packed area 8 exceeds the container area 4. -/
def exOverfull : Container :=
  ((Container.init 2 2).pack ⟨2, 2, 1, true, false, none⟩ 0 0).pack
    ⟨2, 2, 1, true, false, none⟩ 0 0

/-! ### C6 -/

/-- C6: `center_of_gravity` fails (returns `none`, the embedding of the
synchronous `ZeroDivisionError`) exactly when the container has no packed
shipments or the total packed weight is zero, and for nonzero total weight it
returns a value.  The operation is a pure query: it reads the shipment list
and never writes the container. -/
theorem c6_center_of_gravity_error_iff (c : Container) :
    (c.center_of_gravity = none ↔ (c.shipments = [] ∨ c.weight = 0)) ∧
    (c.weight ≠ 0 → ∃ p : Position, c.center_of_gravity = some p) := by
  unfold Container.center_of_gravity
  by_cases h : c.weight = 0
  · simp [h]
  · refine ⟨?_, fun _ => ⟨_, if_neg h⟩⟩
    simp only [if_neg h]
    simp [h]
    intro hnil
    exact h (weight_eq_zero_of_nil c hnil)

/-- Witness for C6 at the concrete container `exSingle` (weight 40). -/
theorem c6_center_of_gravity_error_iff_witness :
    (exSingle.center_of_gravity = none
      ↔ (exSingle.shipments = [] ∨ exSingle.weight = 0)) ∧
    ∃ p : Position, exSingle.center_of_gravity = some p :=
  ⟨(c6_center_of_gravity_error_iff exSingle).1,
   (c6_center_of_gravity_error_iff exSingle).2 (by decide)⟩

/-! ### C7 -/

/-- C7: `remaining_volume` is `total_volume` minus the sum of the packed
shipments' volumes with no correction for overlap (in particular it is
negative on the overlapping example `exOverfull`), and `degree_of_filling` is
`remaining_volume / total_volume`. -/
theorem c7_remaining_volume_no_overlap_correction (c : Container)
    (h : c.total_volume ≠ 0) :
    c.remaining_volume
        = c.total_volume - (c.shipments.map (fun s => s.shipment.volume)).sum ∧
    c.degree_of_filling
        = some ((c.remaining_volume : ℚ) / (c.total_volume : ℚ)) ∧
    (exOverfull.remaining_volume < 0 ∧
      ∀ s1 ∈ exOverfull.shipments, ∀ s2 ∈ exOverfull.shipments,
        specRectOverlap s1 s2) := by
  refine ⟨rfl, ?_, by decide, ?_⟩
  · simp [Container.degree_of_filling, h]
  · intro s1 hs1 s2 hs2
    have hs : exOverfull.shipments
        = [⟨⟨2, 2, 1, true, false, none⟩, ⟨0, 0⟩⟩,
           ⟨⟨2, 2, 1, true, false, none⟩, ⟨0, 0⟩⟩] := by
      simp [exOverfull, Container.pack, Container.update_map, Container.init]
    rw [hs] at hs1 hs2
    simp only [List.mem_cons, List.not_mem_nil, or_false] at hs1 hs2
    have h1 : s1 = ⟨⟨2, 2, 1, true, false, none⟩, ⟨0, 0⟩⟩ := by
      rcases hs1 with h | h <;> exact h
    have h2 : s2 = ⟨⟨2, 2, 1, true, false, none⟩, ⟨0, 0⟩⟩ := by
      rcases hs2 with h | h <;> exact h
    subst h1; subst h2
    simp only [specRectOverlap]
    push_neg
    norm_num

/-- Witness for C7 at the concrete container `exOverfull` (total volume 4). -/
theorem c7_remaining_volume_no_overlap_correction_witness :
    exOverfull.remaining_volume
        = exOverfull.total_volume
          - (exOverfull.shipments.map (fun s => s.shipment.volume)).sum ∧
    exOverfull.degree_of_filling
        = some ((exOverfull.remaining_volume : ℚ) / (exOverfull.total_volume : ℚ)) ∧
    (exOverfull.remaining_volume < 0 ∧
      ∀ s1 ∈ exOverfull.shipments, ∀ s2 ∈ exOverfull.shipments,
        specRectOverlap s1 s2) :=
  c7_remaining_volume_no_overlap_correction exOverfull (by decide)

/-! ### C8 -/

/-- C8: a freshly constructed container (positive dimensions, as required by
the constructor contract) has `valid() = true`, `remaining_volume` equal to
`total_volume`, and `degree_of_filling` equal to 1. -/
theorem c8_fresh_container (l h : ℕ) (hl : 0 < l) (hh : 0 < h) :
    (Container.init l h).valid = true ∧
    (Container.init l h).remaining_volume = (Container.init l h).total_volume ∧
    (Container.init l h).degree_of_filling = some 1 := by
  have htv : (Container.init l h).total_volume ≠ 0 := by
    simp only [Container.total_volume, Container.init, ne_eq, Int.mul_eq_zero,
      Int.natCast_eq_zero]
    omega
  have hr : (Container.init l h).remaining_volume = (Container.init l h).total_volume := by
    simp [Container.remaining_volume, Container.init]
  refine ⟨?_, hr, ?_⟩
  · simp [Container.valid, Container.check_ouf_bound_shipments,
      Container.check__non_overlapping_shipments, Container.init]
  · have h0 : ((Container.init l h).total_volume : ℚ) ≠ 0 := by exact_mod_cast htv
    rw [Container.degree_of_filling, if_neg htv, hr, div_self h0]

/-- Witness for C8 at dimensions 5 × 3. -/
theorem c8_fresh_container_witness :
    (Container.init 5 3).valid = true ∧
    (Container.init 5 3).remaining_volume = (Container.init 5 3).total_volume ∧
    (Container.init 5 3).degree_of_filling = some 1 :=
  c8_fresh_container 5 3 (by decide) (by decide)

/-! ### C9 -/

/-- C9: packing any list of shipment requests into a fresh container makes
`weight()` the sum of the individual weights, and the result is invariant
under permutation of the pack sequence. -/
theorem c9_weight_roundtrip (l h : ℕ) (items items2 : List (Shipment × ℤ × ℤ))
    (hperm : items.Perm items2) :
    ((Container.init l h).packList items).weight
        = (items.map (fun it => it.1.weight)).sum ∧
    ((Container.init l h).packList items2).weight
        = ((Container.init l h).packList items).weight := by
  have base : (Container.init l h).weight = 0 := by
    simp [Container.weight, Container.init]
  constructor
  · rw [weight_packList, base, zero_add]
  · rw [weight_packList, weight_packList, base,
      (hperm.map (fun it => it.1.weight)).sum_eq]

/-- Witness for C9: two shipments packed in both orders. -/
theorem c9_weight_roundtrip_witness :
    ((Container.init 5 3).packList
        [(⟨1, 1, 40, true, false, none⟩, 0, 0), (⟨1, 2, 20, true, false, none⟩, 1, 0)]).weight
      = ([(((⟨1, 1, 40, true, false, none⟩ : Shipment), (0 : ℤ), (0 : ℤ))),
          ((⟨1, 2, 20, true, false, none⟩ : Shipment), (1 : ℤ), (0 : ℤ))].map
            (fun it => it.1.weight)).sum ∧
    ((Container.init 5 3).packList
        [(⟨1, 2, 20, true, false, none⟩, 1, 0), (⟨1, 1, 40, true, false, none⟩, 0, 0)]).weight
      = ((Container.init 5 3).packList
          [(⟨1, 1, 40, true, false, none⟩, 0, 0), (⟨1, 2, 20, true, false, none⟩, 1, 0)]).weight :=
  c9_weight_roundtrip 5 3 _ _ (List.Perm.swap _ _ _)

/-! ### C2 and C3: center-of-gravity computations -/

/-- The source's center-of-gravity fold computes, in each component, the sum
of `center_of_gravity_i * weight_i` over the list. -/
theorem foldl_cog (l : List PackedShipment) (p : Position) :
    l.foldl (fun (cog : Position) ps =>
        cog.add (ps.center_of_gravity.mul ps.shipment.weight)) p
      = ⟨p.x + (l.map
            (fun ps => ps.center_of_gravity.x * (ps.shipment.weight : ℚ))).sum,
         p.y + (l.map
            (fun ps => ps.center_of_gravity.y * (ps.shipment.weight : ℚ))).sum⟩ := by
  induction l generalizing p with
  | nil => cases p; simp
  | cons a t ih =>
      rw [List.foldl_cons, ih]
      simp only [Position.add, Position.mul, List.map_cons, List.sum_cons,
        Position.mk.injEq]
      constructor <;> ring

/-- C2: with nonzero total weight, `optimal_center_of_gravity` is the fixed
point `(length / 2, 0)` — independent of the container's contents — and
`distance_optimal_cog`, the square root of the squared sum of the per-axis
differences, equals the absolute value `|Δx + Δy|`, not the Euclidean
distance. -/
theorem c2_distance_optimal_cog_abs_sum (c : Container) (h : c.weight ≠ 0) :
    c.optimal_center_of_gravity = ⟨(c.length : ℚ) / 2, 0⟩ ∧
    (∀ c' : Container, c'.length = c.length →
      c'.optimal_center_of_gravity = c.optimal_center_of_gravity) ∧
    ∃ cog : Position, c.center_of_gravity = some cog ∧
      c.distance_optimal_cog
        = some ((|((c.length : ℚ) / 2 - cog.x) + (0 - cog.y)| : ℚ) : ℝ) := by
  refine ⟨rfl, ?_, ?_⟩
  · intro c' hlen
    simp [Container.optimal_center_of_gravity, hlen]
  · have hcog : c.center_of_gravity
        = some ((c.shipments.foldl
            (fun (cog : Position) ps =>
              cog.add (ps.center_of_gravity.mul ps.shipment.weight))
            ⟨0, 0⟩).div c.weight) := by
      rw [Container.center_of_gravity, if_neg h]
    refine ⟨_, hcog, ?_⟩
    rw [Container.distance_optimal_cog, hcog, Option.map_some']
    congr 1
    rw [Real.sqrt_sq_eq_abs]
    have hcast : ((|((c.length : ℚ) / 2
          - ((c.shipments.foldl (fun (cog : Position) ps =>
              cog.add (ps.center_of_gravity.mul ps.shipment.weight))
              ⟨0, 0⟩).div c.weight).x) + (0
          - ((c.shipments.foldl (fun (cog : Position) ps =>
              cog.add (ps.center_of_gravity.mul ps.shipment.weight))
              ⟨0, 0⟩).div c.weight).y)| : ℚ) : ℝ)
        = |(((c.length : ℚ) / 2
            - ((c.shipments.foldl (fun (cog : Position) ps =>
                cog.add (ps.center_of_gravity.mul ps.shipment.weight))
                ⟨0, 0⟩).div c.weight).x : ℚ) : ℝ) + (((0 : ℚ)
            - ((c.shipments.foldl (fun (cog : Position) ps =>
                cog.add (ps.center_of_gravity.mul ps.shipment.weight))
                ⟨0, 0⟩).div c.weight).y : ℚ) : ℝ)| := by
      push_cast
      ring_nf
    rw [hcast]
    congr 1
    simp only [Container.optimal_center_of_gravity]
    push_cast
    ring

/-- Witness for C2 at the concrete container `exSingle` (weight 40). -/
theorem c2_distance_optimal_cog_abs_sum_witness :
    exSingle.optimal_center_of_gravity = ⟨(exSingle.length : ℚ) / 2, 0⟩ ∧
    (∀ c' : Container, c'.length = exSingle.length →
      c'.optimal_center_of_gravity = exSingle.optimal_center_of_gravity) ∧
    ∃ cog : Position, exSingle.center_of_gravity = some cog ∧
      exSingle.distance_optimal_cog
        = some ((|((exSingle.length : ℚ) / 2 - cog.x) + (0 - cog.y)| : ℚ) : ℝ) :=
  c2_distance_optimal_cog_abs_sum exSingle (by decide)

/-- C3: with positive total weight, `center_of_gravity` is the weight-weighted
average `Σ(center_of_gravity_i * weight_i) / Σ(weight_i)`, and a container
holding a single shipment placed at the origin has center of gravity
`(length / 2, height / 2)`, independent of the weight. -/
theorem c3_center_of_gravity_weighted_average (c : Container) (h : 0 < c.weight) :
    c.center_of_gravity = some
      ⟨(c.shipments.map
          (fun ps => ps.center_of_gravity.x * (ps.shipment.weight : ℚ))).sum
            / (c.weight : ℚ),
       (c.shipments.map
          (fun ps => ps.center_of_gravity.y * (ps.shipment.weight : ℚ))).sum
            / (c.weight : ℚ)⟩ ∧
    (∀ s : Shipment, c.shipments = [⟨s, ⟨0, 0⟩⟩] →
      c.center_of_gravity = some ⟨(s.length : ℚ) / 2, (s.height : ℚ) / 2⟩) := by
  have h0 : c.weight ≠ 0 := h.ne'
  have hcog : c.center_of_gravity = some
      ⟨(c.shipments.map
          (fun ps => ps.center_of_gravity.x * (ps.shipment.weight : ℚ))).sum
            / (c.weight : ℚ),
       (c.shipments.map
          (fun ps => ps.center_of_gravity.y * (ps.shipment.weight : ℚ))).sum
            / (c.weight : ℚ)⟩ := by
    rw [Container.center_of_gravity, if_neg h0, foldl_cog]
    simp [Position.div]
  refine ⟨hcog, ?_⟩
  intro s hs
  have hw : c.weight = s.weight := by
    simp [Container.weight, hs]
  have hwQ : ((s.weight : ℤ) : ℚ) ≠ 0 := by
    rw [← hw]
    exact_mod_cast h0
  rw [hcog, hs, hw]
  simp only [List.map_cons, List.map_nil, List.sum_cons, List.sum_nil,
    PackedShipment.center_of_gravity, Option.some.injEq, Position.mk.injEq]
  constructor <;> (field_simp; ring)

/-- Witness for C3 at the concrete container `exSingle` (single shipment of
weight 40 at the origin). -/
theorem c3_center_of_gravity_weighted_average_witness :
    exSingle.center_of_gravity = some
      ⟨(exSingle.shipments.map
          (fun ps => ps.center_of_gravity.x * (ps.shipment.weight : ℚ))).sum
            / (exSingle.weight : ℚ),
       (exSingle.shipments.map
          (fun ps => ps.center_of_gravity.y * (ps.shipment.weight : ℚ))).sum
            / (exSingle.weight : ℚ)⟩ ∧
    (∀ s : Shipment, exSingle.shipments = [⟨s, ⟨0, 0⟩⟩] →
      exSingle.center_of_gravity
        = some ⟨(s.length : ℚ) / 2, (s.height : ℚ) / 2⟩) :=
  c3_center_of_gravity_weighted_average exSingle (by decide)

/-! ### Grid lemmas: slice normalization and int8 wrap-around -/

/-- With nonnegative start and nonnegative extent, the normalized slice
`[x : x+L]` of an axis of size `n` covers exactly the indices of
`[x, x+L) ∩ [0, n)`. -/
theorem sliceMem_nonneg (n : ℕ) (x L : ℤ) (i : ℕ) (hx : 0 ≤ x) (hL : 0 ≤ L) :
    sliceMem n x (x + L) i = true
      ↔ (x ≤ (i : ℤ) ∧ (i : ℤ) < x + L ∧ i < n) := by
  simp only [sliceMem, normIdx, decide_eq_true_eq]
  split_ifs <;> omega

/-- Wrapping is idempotent across an increment: re-wrapping an already wrapped
value before adding one agrees with wrapping the exact count. -/
theorem wrap8_wrap8_add_one (z : ℤ) : wrap8 (wrap8 z + 1) = wrap8 (z + 1) := by
  unfold wrap8
  omega

/-- Values already in the int8 range are fixed by `wrap8`. -/
theorem wrap8_eq_self (z : ℤ) (h1 : -128 ≤ z) (h2 : z ≤ 127) : wrap8 z = z := by
  unfold wrap8
  omega

/-! ### C5 -/

/-- C5 (amended): a `pack` whose coordinates are nonnegative (with shipment
dimensions nonnegative, per the data model) raises no error, still appends
the shipment to the list, bumps the int8 counter of every footprint cell that
lies inside the grid by one, and modifies no cell outside the footprint.
For negative coordinates numpy wraps the slice bounds to `n + i` instead of
clipping, which breaks this (see the counterexample). -/
theorem c5_pack_nonneg_coords_clip (c : Container) (s : Shipment) (x y : ℤ)
    (hx : 0 ≤ x) (hy : 0 ≤ y) (hL : 0 ≤ s.length) (hH : 0 ≤ s.height) :
    (c.pack s x y).shipments = c.shipments ++ [⟨s, ⟨(x : ℚ), (y : ℚ)⟩⟩] ∧
    ∀ i j : ℕ, (c.pack s x y).map i j
      = if x ≤ (i : ℤ) ∧ (i : ℤ) < x + s.length ∧ i < c.length
            ∧ y ≤ (j : ℤ) ∧ (j : ℤ) < y + s.height ∧ j < c.height
        then wrap8 (c.map i j + 1) else c.map i j := by
  refine ⟨rfl, fun i j => ?_⟩
  show (c.update_map s x y).map i j = _
  rw [Container.update_map]
  simp only
  have hcond : (sliceMem c.length x (x + s.length) i
        && sliceMem c.height y (y + s.height) j) = true
      ↔ (x ≤ (i : ℤ) ∧ (i : ℤ) < x + s.length ∧ i < c.length
          ∧ y ≤ (j : ℤ) ∧ (j : ℤ) < y + s.height ∧ j < c.height) := by
    rw [Bool.and_eq_true, sliceMem_nonneg _ _ _ _ hx hL,
      sliceMem_nonneg _ _ _ _ hy hH]
    tauto
  by_cases hb : (sliceMem c.length x (x + s.length) i
      && sliceMem c.height y (y + s.height) j) = true
  · rw [if_pos hb, if_pos (hcond.mp hb)]
  · rw [if_neg hb, if_neg (fun hc => hb (hcond.mpr hc))]

/-- Counterexample to C5 as stated: packing a 2×1 shipment at `(-4, 0)` into a
fresh 5×3 container writes cell `(1, 0)` even though that cell lies outside
the footprint `[-4, -2) × [0, 1)` — numpy wraps the negative slice bounds to
`[1, 3)` instead of clipping them. -/
theorem c5_pack_negative_coord_counterexample :
    ((Container.init 5 3).pack ⟨2, 1, 1, true, false, none⟩ (-4) 0).map 1 0 = 1 ∧
    (Container.init 5 3).map 1 0 = 0 ∧
    ¬((-4 : ℤ) ≤ (1 : ℤ) ∧ (1 : ℤ) < (-4 : ℤ) + 2) := by
  decide

/-- Witness for C5 at concrete inputs: a 2×1 shipment packed at `(1, 0)` into
a fresh 5×3 container. -/
theorem c5_pack_nonneg_coords_clip_witness :
    ((Container.init 5 3).pack ⟨2, 1, 1, true, false, none⟩ 1 0).shipments
        = (Container.init 5 3).shipments
          ++ [⟨⟨2, 1, 1, true, false, none⟩, ⟨(1 : ℚ), (0 : ℚ)⟩⟩] ∧
    ∀ i j : ℕ, ((Container.init 5 3).pack ⟨2, 1, 1, true, false, none⟩ 1 0).map i j
      = if (1 : ℤ) ≤ (i : ℤ) ∧ (i : ℤ) < 1 + (2 : ℤ)
            ∧ i < (Container.init 5 3).length
            ∧ (0 : ℤ) ≤ (j : ℤ) ∧ (j : ℤ) < 0 + (1 : ℤ)
            ∧ j < (Container.init 5 3).height
        then wrap8 ((Container.init 5 3).map i j + 1)
        else (Container.init 5 3).map i j :=
  c5_pack_nonneg_coords_clip (Container.init 5 3) ⟨2, 1, 1, true, false, none⟩ 1 0
    (by decide) (by decide) (by decide) (by decide)

/-! ### C10 -/

/-- C10: the overlap check compares packed shipments by value, so packing the
same shipment twice at the same in-bounds coordinates into a fresh container
leaves `valid` true even though the footprints coincide, and every footprint
cell of the grid holds 2. -/
theorem c10_duplicate_pack_stays_valid (l h : ℕ) (s : Shipment) (x y : ℤ)
    (hx : 0 ≤ x) (hy : 0 ≤ y) (hL : 0 ≤ s.length) (hH : 0 ≤ s.height)
    (hxL : x + s.length ≤ (l : ℤ)) (hyH : y + s.height ≤ (h : ℤ)) :
    (((Container.init l h).pack s x y).pack s x y).valid = true ∧
    ∀ i j : ℕ, x ≤ (i : ℤ) → (i : ℤ) < x + s.length → y ≤ (j : ℤ) →
      (j : ℤ) < y + s.height →
      (((Container.init l h).pack s x y).pack s x y).map i j = 2 := by
  constructor
  · have hb : ∀ ps ∈ (((Container.init l h).pack s x y).pack s x y).shipments,
        ¬(ps.position.x < 0) ∧ ¬(ps.position.y < 0)
          ∧ ¬(ps.position.x + (ps.shipment.length : ℚ)
                > ((((Container.init l h).pack s x y).pack s x y).length : ℚ))
          ∧ ¬(ps.position.y + (ps.shipment.height : ℚ)
                > ((((Container.init l h).pack s x y).pack s x y).height : ℚ)) := by
      intro ps hps
      have hmem : ps = ⟨s, ⟨(x : ℚ), (y : ℚ)⟩⟩ := by
        have : (((Container.init l h).pack s x y).pack s x y).shipments
            = [⟨s, ⟨(x : ℚ), (y : ℚ)⟩⟩, ⟨s, ⟨(x : ℚ), (y : ℚ)⟩⟩] := rfl
        rw [this] at hps
        simp only [List.mem_cons, List.not_mem_nil, or_false] at hps
        rcases hps with h' | h' <;> exact h'
      subst hmem
      refine ⟨?_, ?_, ?_, ?_⟩ <;> simp only [] <;> push_cast <;>
        [exact not_lt.mpr (by exact_mod_cast hx);
         exact not_lt.mpr (by exact_mod_cast hy);
         exact not_lt.mpr (by exact_mod_cast hxL);
         exact not_lt.mpr (by exact_mod_cast hyH)]
    rw [Container.valid, Bool.and_eq_true]
    constructor
    · rw [Container.check_ouf_bound_shipments, List.all_eq_true]
      intro ps hps
      obtain ⟨h1, h2, h3, h4⟩ := hb ps hps
      simp [h1, h2, h3, h4]
    · rw [Container.check__non_overlapping_shipments, List.all_eq_true]
      intro s1 hs1
      rw [List.all_eq_true]
      intro s2 hs2
      have he : s1 = s2 := by
        have hl2 : (((Container.init l h).pack s x y).pack s x y).shipments
            = [⟨s, ⟨(x : ℚ), (y : ℚ)⟩⟩, ⟨s, ⟨(x : ℚ), (y : ℚ)⟩⟩] := rfl
        rw [hl2] at hs1 hs2
        simp only [List.mem_cons, List.not_mem_nil, or_false] at hs1 hs2
        rcases hs1 with h1 | h1 <;> rcases hs2 with h2 | h2 <;>
          rw [h1, h2]
      simp [he]
  · intro i j hxi hixL hyj hjyH
    have hii : i < l := by omega
    have hjj : j < h := by omega
    have hbx : sliceMem l x (x + s.length) i = true :=
      (sliceMem_nonneg l x s.length i hx hL).mpr ⟨hxi, hixL, hii⟩
    have hby : sliceMem h y (y + s.height) j = true :=
      (sliceMem_nonneg h y s.height j hy hH).mpr ⟨hyj, hjyH, hjj⟩
    have h1 : ((Container.init l h).pack s x y).map i j = 1 := by
      show ((Container.init l h).update_map s x y).map i j = 1
      rw [Container.update_map]
      simp only
      have hc0 : (sliceMem (Container.init l h).length x (x + s.length) i
          && sliceMem (Container.init l h).height y (y + s.height) j) = true := by
        show (sliceMem l x (x + s.length) i
          && sliceMem h y (y + s.height) j) = true
        rw [hbx, hby]
        rfl
      rw [if_pos hc0]
      show wrap8 (0 + 1) = 1
      decide
    show (((Container.init l h).pack s x y).update_map s x y).map i j = 2
    rw [Container.update_map]
    simp only
    have hc1 : (sliceMem ((Container.init l h).pack s x y).length x (x + s.length) i
        && sliceMem ((Container.init l h).pack s x y).height y (y + s.height) j) = true := by
      show (sliceMem l x (x + s.length) i
        && sliceMem h y (y + s.height) j) = true
      rw [hbx, hby]
      rfl
    rw [if_pos hc1, h1]

    decide

/-- Witness for C10: a 2×2 shipment of weight 7 packed twice at `(1, 0)` into
a fresh 5×3 container. -/
theorem c10_duplicate_pack_stays_valid_witness :
    (((Container.init 5 3).pack ⟨2, 2, 7, true, false, none⟩ 1 0).pack
        ⟨2, 2, 7, true, false, none⟩ 1 0).valid = true ∧
    ∀ i j : ℕ, (1 : ℤ) ≤ (i : ℤ) → (i : ℤ) < 1 + (2 : ℤ) → (0 : ℤ) ≤ (j : ℤ) →
      (j : ℤ) < 0 + (2 : ℤ) →
      (((Container.init 5 3).pack ⟨2, 2, 7, true, false, none⟩ 1 0).pack
          ⟨2, 2, 7, true, false, none⟩ 1 0).map i j = 2 :=
  c10_duplicate_pack_stays_valid 5 3 ⟨2, 2, 7, true, false, none⟩ 1 0
    (by decide) (by decide) (by decide) (by decide) (by decide) (by decide)

/-! ### C4 -/

/-- Claim-side covering predicate: the footprint of a shipment packed at
`(x, y)` covers the integer cell `(i, j)`. -/
def coversCell (s : Shipment) (x y : ℤ) (i j : ℕ) : Bool :=
  decide (x ≤ (i : ℤ) ∧ (i : ℤ) < x + s.length
    ∧ y ≤ (j : ℤ) ∧ (j : ℤ) < y + s.height)

/-- Grid invariant maintained by `packList`: if a cell holds the int8 wrap of
`k`, then after packing a list of in-range requests it holds the int8 wrap of
`k` plus the number of newly packed shipments covering it. -/
theorem packList_map_wrap (items : List (Shipment × ℤ × ℤ)) (c : Container)
    (k : ℤ)
    (hin : ∀ it ∈ items, 0 ≤ it.2.1 ∧ 0 ≤ it.1.length
        ∧ it.2.1 + it.1.length ≤ (c.length : ℤ)
        ∧ 0 ≤ it.2.2 ∧ 0 ≤ it.1.height
        ∧ it.2.2 + it.1.height ≤ (c.height : ℤ))
    (i j : ℕ) (hmap : c.map i j = wrap8 k) :
    (c.packList items).map i j
      = wrap8 (k + (items.countP
          (fun it => coversCell it.1 it.2.1 it.2.2 i j) : ℤ)) := by
  induction items generalizing c k with
  | nil =>
      simpa [Container.packList] using hmap
  | cons it rest ih =>
      obtain ⟨hx, hL, hxL, hy, hH, hyH⟩ := hin it (List.mem_cons_self it rest)
      have hrest : ∀ a ∈ rest, 0 ≤ a.2.1 ∧ 0 ≤ a.1.length
          ∧ a.2.1 + a.1.length ≤ (((c.pack it.1 it.2.1 it.2.2).length : ℕ) : ℤ)
          ∧ 0 ≤ a.2.2 ∧ 0 ≤ a.1.height
          ∧ a.2.2 + a.1.height ≤ (((c.pack it.1 it.2.1 it.2.2).height : ℕ) : ℤ) :=
        fun a ha => hin a (List.mem_cons_of_mem it ha)
      show ((c.pack it.1 it.2.1 it.2.2).packList rest).map i j = _
      by_cases hcov : coversCell it.1 it.2.1 it.2.2 i j = true
      · have hmap2 : (c.pack it.1 it.2.1 it.2.2).map i j = wrap8 (k + 1) := by
          obtain ⟨h1, h2, h3, h4⟩ : it.2.1 ≤ (i : ℤ) ∧ (i : ℤ) < it.2.1 + it.1.length
              ∧ it.2.2 ≤ (j : ℤ) ∧ (j : ℤ) < it.2.2 + it.1.height := by
            simpa [coversCell] using hcov
          have hii : i < c.length := by omega
          have hjj : j < c.height := by omega
          have hbx : sliceMem c.length it.2.1 (it.2.1 + it.1.length) i = true :=
            (sliceMem_nonneg c.length it.2.1 it.1.length i hx hL).mpr ⟨h1, h2, hii⟩
          have hby : sliceMem c.height it.2.2 (it.2.2 + it.1.height) j = true :=
            (sliceMem_nonneg c.height it.2.2 it.1.height j hy hH).mpr ⟨h3, h4, hjj⟩
          show (c.update_map it.1 it.2.1 it.2.2).map i j = wrap8 (k + 1)
          rw [Container.update_map]
          simp only
          rw [hbx, hby]
          simp only [Bool.and_self, if_pos]
          rw [hmap, wrap8_wrap8_add_one]
        rw [ih (c.pack it.1 it.2.1 it.2.2) (k + 1) hrest hmap2]
        congr 1
        rw [List.countP_cons, if_pos hcov]
        push_cast
        ring
      · have hmap2 : (c.pack it.1 it.2.1 it.2.2).map i j = wrap8 k := by
          show (c.update_map it.1 it.2.1 it.2.2).map i j = wrap8 k
          rw [Container.update_map]
          simp only
          have hbfalse : ¬((sliceMem c.length it.2.1 (it.2.1 + it.1.length) i
              && sliceMem c.height it.2.2 (it.2.2 + it.1.height) j) = true) := by
            intro hb
            rw [Bool.and_eq_true,
              sliceMem_nonneg c.length it.2.1 it.1.length i hx hL,
              sliceMem_nonneg c.height it.2.2 it.1.height j hy hH] at hb
            refine hcov ?_
            simp only [coversCell, decide_eq_true_eq]
            tauto
          rw [if_neg hbfalse]
          exact hmap
        rw [ih (c.pack it.1 it.2.1 it.2.2) k hrest hmap2]
        congr 1
        rw [List.countP_cons, if_neg hcov]
        simp

/-- C4 (amended): after any sequence of `pack` calls whose footprints lie
within the `length × height` cell grid, every cell holds the signed 8-bit
reduction `wrap8 k = ((k + 128) mod 256) - 128` of the number `k` of packed
shipments covering it — the grid's dtype is `int8` — and therefore holds
exactly `k` whenever `k ≤ 127`, values above 1 indicating overlap. -/
theorem c4_grid_int8_consistency (l h : ℕ) (items : List (Shipment × ℤ × ℤ))
    (hin : ∀ it ∈ items, 0 ≤ it.2.1 ∧ 0 ≤ it.1.length
        ∧ it.2.1 + it.1.length ≤ (l : ℤ)
        ∧ 0 ≤ it.2.2 ∧ 0 ≤ it.1.height
        ∧ it.2.2 + it.1.height ≤ (h : ℤ)) (i j : ℕ) :
    ((Container.init l h).packList items).map i j
      = wrap8 (items.countP (fun it => coversCell it.1 it.2.1 it.2.2 i j)) ∧
    (items.countP (fun it => coversCell it.1 it.2.1 it.2.2 i j) ≤ 127 →
      ((Container.init l h).packList items).map i j
        = (items.countP (fun it => coversCell it.1 it.2.1 it.2.2 i j) : ℤ)) := by
  have hmain := packList_map_wrap items (Container.init l h) 0 hin i j
    (show (0 : ℤ) = wrap8 0 by decide)
  rw [zero_add] at hmain
  refine ⟨hmain, fun hle => ?_⟩
  rw [hmain, wrap8_eq_self]
  · omega
  · exact_mod_cast hle

set_option maxRecDepth 40000 in
/-- Counterexample to C4 as stated: 128 in-range packs of a 1×1 shipment at
the origin of a 1×1 container cover cell `(0, 0)` 128 times, yet the int8
cell holds `-128`, not 128. -/
theorem c4_grid_int8_counterexample :
    ((Container.init 1 1).packList
        (List.replicate 128
          ((⟨1, 1, 1, true, false, none⟩ : Shipment), (0 : ℤ), (0 : ℤ)))).map 0 0
      = -128 ∧
    (List.replicate 128
        ((⟨1, 1, 1, true, false, none⟩ : Shipment), (0 : ℤ), (0 : ℤ))).countP
        (fun it => coversCell it.1 it.2.1 it.2.2 0 0) = 128 ∧
    (∀ it ∈ List.replicate 128
        ((⟨1, 1, 1, true, false, none⟩ : Shipment), (0 : ℤ), (0 : ℤ)),
      0 ≤ it.2.1 ∧ 0 ≤ it.1.length ∧ it.2.1 + it.1.length ≤ (1 : ℤ)
        ∧ 0 ≤ it.2.2 ∧ 0 ≤ it.1.height ∧ it.2.2 + it.1.height ≤ (1 : ℤ)) ∧
    (-128 : ℤ) ≠ 128 := by
  decide

/-- Witness for C4 at concrete inputs: two overlapping in-range 2×2 shipments
at the origin of a 2×2 container (count 2 at cell `(0, 0)`). -/
theorem c4_grid_int8_consistency_witness :
    ((Container.init 2 2).packList
        [((⟨2, 2, 1, true, false, none⟩ : Shipment), (0 : ℤ), (0 : ℤ)),
         ((⟨2, 2, 1, true, false, none⟩ : Shipment), (0 : ℤ), (0 : ℤ))]).map 0 0
      = wrap8 ([((⟨2, 2, 1, true, false, none⟩ : Shipment), (0 : ℤ), (0 : ℤ)),
          ((⟨2, 2, 1, true, false, none⟩ : Shipment), (0 : ℤ), (0 : ℤ))].countP
            (fun it => coversCell it.1 it.2.1 it.2.2 0 0)) ∧
    ([((⟨2, 2, 1, true, false, none⟩ : Shipment), (0 : ℤ), (0 : ℤ)),
        ((⟨2, 2, 1, true, false, none⟩ : Shipment), (0 : ℤ), (0 : ℤ))].countP
          (fun it => coversCell it.1 it.2.1 it.2.2 0 0) ≤ 127 →
      ((Container.init 2 2).packList
          [((⟨2, 2, 1, true, false, none⟩ : Shipment), (0 : ℤ), (0 : ℤ)),
           ((⟨2, 2, 1, true, false, none⟩ : Shipment), (0 : ℤ), (0 : ℤ))]).map 0 0
        = ([((⟨2, 2, 1, true, false, none⟩ : Shipment), (0 : ℤ), (0 : ℤ)),
            ((⟨2, 2, 1, true, false, none⟩ : Shipment), (0 : ℤ), (0 : ℤ))].countP
              (fun it => coversCell it.1 it.2.1 it.2.2 0 0) : ℤ)) :=
  c4_grid_int8_consistency 2 2
    [((⟨2, 2, 1, true, false, none⟩ : Shipment), (0 : ℤ), (0 : ℤ)),
     ((⟨2, 2, 1, true, false, none⟩ : Shipment), (0 : ℤ), (0 : ℤ))]
    (by decide) 0 0

/-! ### C1 -/

/-- The bounds check passes iff every packed shipment satisfies the four
coordinate inequalities. -/
theorem check_ouf_bound_iff (c : Container) :
    c.check_ouf_bound_shipments = true ↔
      ∀ ps ∈ c.shipments, 0 ≤ ps.position.x ∧ 0 ≤ ps.position.y
        ∧ ps.position.x + (ps.shipment.length : ℚ) ≤ (c.length : ℚ)
        ∧ ps.position.y + (ps.shipment.height : ℚ) ≤ (c.height : ℚ) := by
  simp only [Container.check_ouf_bound_shipments, List.all_eq_true,
    Bool.not_eq_true', Bool.or_eq_false_iff, decide_eq_false_iff_not, not_lt,
    gt_iff_lt]
  exact forall₂_congr fun ps _ => by tauto

/-- The overlap check passes iff every pair of value-distinct packed
shipments passes the separation test. -/
theorem check_overlap_iff (c : Container) :
    c.check__non_overlapping_shipments = true ↔
      ∀ s1 ∈ c.shipments, ∀ s2 ∈ c.shipments, s1 ≠ s2 → ¬ specRectOverlap s1 s2 := by
  simp only [Container.check__non_overlapping_shipments, List.all_eq_true,
    Bool.or_eq_true, decide_eq_true_eq]
  refine forall₂_congr fun s1 _ => forall₂_congr fun s2 _ => ?_
  have hsep : separated s1 s2 = true ↔ ¬ specRectOverlap s1 s2 := by
    simp only [separated, Bool.or_eq_true, decide_eq_true_eq,
      specRectOverlap, not_not]
    tauto
  rw [hsep]
  constructor
  · rintro (he | hn) hne
    · exact absurd he hne
    · exact hn
  · intro himp
    by_cases he : s1 = s2
    · exact Or.inl he
    · exact Or.inr (himp he)

/-- For a shipment with positive dimensions, the source's four coordinate
inequalities say exactly that the footprint, as a set of rational points,
lies inside the closed container box. -/
theorem bounds_iff_footprint (ps : PackedShipment) (len ht : ℕ)
    (hL : 0 < ps.shipment.length) (hH : 0 < ps.shipment.height) :
    (0 ≤ ps.position.x ∧ 0 ≤ ps.position.y
        ∧ ps.position.x + (ps.shipment.length : ℚ) ≤ (len : ℚ)
        ∧ ps.position.y + (ps.shipment.height : ℚ) ≤ (ht : ℚ))
      ↔ specFootprintWithin ps len ht := by
  have hLQ : (0 : ℚ) < (ps.shipment.length : ℚ) := by exact_mod_cast hL
  have hHQ : (0 : ℚ) < (ps.shipment.height : ℚ) := by exact_mod_cast hH
  constructor
  · rintro ⟨h1, h2, h3, h4⟩ q r hq1 hq2 hr1 hr2
    refine ⟨by linarith, by linarith, by linarith, by linarith⟩
  · intro hf
    have hcorner := hf ps.position.x ps.position.y le_rfl (by linarith)
      le_rfl (by linarith)
    refine ⟨hcorner.1, hcorner.2.2.1, ?_, ?_⟩
    · by_contra hlt
      push_neg at hlt
      set a : ℚ := max ps.position.x (len : ℚ) with ha
      have hab : a < ps.position.x + ps.shipment.length :=
        max_lt (by linarith) hlt
      set q : ℚ := (a + (ps.position.x + ps.shipment.length)) / 2 with hqdef
      have haq : a < q := by
        rw [hqdef]
        linarith
      have hqb : q < ps.position.x + ps.shipment.length := by
        rw [hqdef]
        linarith
      have hxq : ps.position.x ≤ q := le_trans (le_max_left _ _) haq.le
      have := (hf q ps.position.y hxq hqb le_rfl (by linarith)).2.1
      have hlen_le : (len : ℚ) ≤ a := le_max_right _ _
      linarith
    · by_contra hlt
      push_neg at hlt
      set a : ℚ := max ps.position.y (ht : ℚ) with ha
      have hab : a < ps.position.y + ps.shipment.height :=
        max_lt (by linarith) hlt
      set r : ℚ := (a + (ps.position.y + ps.shipment.height)) / 2 with hrdef
      have har : a < r := by
        rw [hrdef]
        linarith
      have hrb : r < ps.position.y + ps.shipment.height := by
        rw [hrdef]
        linarith
      have hyr : ps.position.y ≤ r := le_trans (le_max_left _ _) har.le
      have := (hf ps.position.x r le_rfl (by linarith) hyr hrb).2.2.2
      have hht_le : (ht : ℚ) ≤ a := le_max_right _ _
      linarith

/-- C1: for a container whose packed shipments have positive dimensions (as
the data model requires), `valid` is true iff every packed shipment's
footprint lies fully inside `[0, length] × [0, height]` and no two
value-distinct packed shipments' footprints overlap, where two rectangles
overlap iff neither is entirely to one side of the other along both axes
(sharing only a boundary edge is not an overlap). -/
theorem c1_valid_iff_inbounds_and_disjoint (c : Container)
    (hdim : ∀ ps ∈ c.shipments,
      0 < ps.shipment.length ∧ 0 < ps.shipment.height) :
    c.valid = true ↔
      ((∀ ps ∈ c.shipments, specFootprintWithin ps c.length c.height) ∧
       ∀ s1 ∈ c.shipments, ∀ s2 ∈ c.shipments, s1 ≠ s2 →
         ¬ specRectOverlap s1 s2) := by
  rw [Container.valid, Bool.and_eq_true, check_ouf_bound_iff, check_overlap_iff]
  exact and_congr
    (forall₂_congr fun ps hps =>
      bounds_iff_footprint ps c.length c.height (hdim ps hps).1 (hdim ps hps).2)
    Iff.rfl

/-- An example container for the C1 witness: 5×3 holding a 1×1 shipment at
`(0, 0)` and a 1×2 shipment at `(1, 0)`. -/
def exPair : Container :=
  ((Container.init 5 3).pack ⟨1, 1, 40, true, false, none⟩ 0 0).pack
    ⟨1, 2, 20, true, false, none⟩ 1 0

/-- Witness for C1 at the concrete container `exPair`. -/
theorem c1_valid_iff_inbounds_and_disjoint_witness :
    exPair.valid = true ↔
      ((∀ ps ∈ exPair.shipments, specFootprintWithin ps exPair.length exPair.height) ∧
       ∀ s1 ∈ exPair.shipments, ∀ s2 ∈ exPair.shipments, s1 ≠ s2 →
         ¬ specRectOverlap s1 s2) :=
  c1_valid_iff_inbounds_and_disjoint exPair (by decide)

end RLBinPacking
